import Mathlib

/- Shallow embedding of the logger package (src/logger.go): a leveled
logging facility with four severities, a global default Logger, a
close-all shutdown, a file-sink helper and an error-wrapping helper.
Environmental inputs of the Go runtime (wall-clock time, the call site
resolved from the stack, the stack trace text returned by debug.Stack,
the operating system's reply to an open request) are passed to the
embedded operations as explicit parameters. -/

namespace LoggerSpec

/-- Severity constant sInfo; the Go type severity is an int and the four
constants are iota values 0..3. -/
def sInfo : Int := 0

/-- Severity constant sWarning. -/
def sWarning : Int := 1

/-- Severity constant sError. -/
def sError : Int := 2

/-- Severity constant sFatal. -/
def sFatal : Int := 3

/-- Call-site information the Go runtime resolves for the header under
the Lshortfile flag: short file name and line number. -/
structure CallSite where
  file : String
  line : Nat
deriving Repr, DecidableEq

/-- Wall-clock time at the moment of a write, for the Ldate and Ltime
header fields. -/
structure Timestamp where
  year : Nat
  month : Nat
  day : Nat
  hour : Nat
  minute : Nat
  second : Nat
deriving Repr, DecidableEq

/-- Decimal digit character, modelling the byte 48 + d that the itoa
helper of the Go log package emits (it is only reached with d < 10). -/
def digitChar (d : Nat) : Char :=
  if d = 0 then '0' else if d = 1 then '1' else if d = 2 then '2'
  else if d = 3 then '3' else if d = 4 then '4' else if d = 5 then '5'
  else if d = 6 then '6' else if d = 7 then '7' else if d = 8 then '8'
  else '9'

/-- Decimal digits of a natural number, most significant first. -/
def decChars (n : Nat) : List Char :=
  if n < 10 then [digitChar n]
  else decChars (n / 10) ++ [digitChar (n % 10)]
decreasing_by exact Nat.div_lt_self (by omega) (by omega)

/-- Left zero padding to a minimal width, as the itoa helper of the Go
log package pads the date and time fields. -/
def padZeros (w : Nat) (s : List Char) : List Char :=
  List.replicate (w - s.length) '0' ++ s

/-- Model of the itoa helper of the Go log package: decimal rendering
left padded with zeros to the given width; width 0 stands for the
unpadded case (wid = -1 in Go). -/
def itoaGo (n wid : Nat) : String :=
  ⟨padZeros wid (decChars n)⟩

/-- Date field of the header: the year padded to four digits, month and
day to two, separated by slashes, as formatHeader does under Ldate. -/
def dateStr (ts : Timestamp) : String :=
  itoaGo ts.year 4 ++ "/" ++ itoaGo ts.month 2 ++ "/" ++ itoaGo ts.day 2

/-- Time field of the header: two-digit hour, minute and second
separated by colons, as formatHeader does under Ltime. -/
def timeStr (ts : Timestamp) : String :=
  itoaGo ts.hour 2 ++ ":" ++ itoaGo ts.minute 2 ++ ":" ++ itoaGo ts.second 2

/-- Header written by a Go log.Logger configured with flags
Ldate, Ltime and Lshortfile: the prefix, then date, time and file:line
followed by a colon and a space. -/
def headerStr (pre : String) (ts : Timestamp) (cs : CallSite) : String :=
  pre ++ dateStr ts ++ " " ++ timeStr ts ++ " " ++ cs.file ++ ":" ++
    itoaGo cs.line 0 ++ ": "

/-- A Go log.Logger bound to one sink: its prefix string and the bytes
written through it so far (the io.Writer modelled as the accumulated
string). -/
structure GoLogger where
  prefixStr : String
  buf : String
deriving Repr, DecidableEq

/-- Model of log.Logger.Output: append the header, the text, and a
terminating newline when the text does not already end in one (the Go
code inspects the last byte of s). The calldepth argument of Output only
selects which stack frame the runtime reports, which the CallSite
parameter models. -/
def GoLogger.Output (l : GoLogger) (ts : Timestamp) (cs : CallSite) (s : String) : GoLogger :=
  let withNl := if s.data.getLast? = some '\n' then s else s ++ "\n"
  ⟨l.prefixStr, l.buf ++ (headerStr l.prefixStr ts cs ++ withNl)⟩

/-- A closable sink as it sits in the closers list: an identifier and
the error its Close method returns, none meaning success. -/
structure Sink where
  sid : Nat
  closeErr : Option String
deriving Repr, DecidableEq

/-- The Logger structure of the package. -/
structure Logger where
  infoLog : GoLogger
  warningLog : GoLogger
  errorLog : GoLogger
  fatalLog : GoLogger
  closers : List Sink
  initialized : Bool
deriving Repr, DecidableEq

/-- Result of a package operation: normal return, a Go panic, or the
run-time crash from dereferencing a nil Logger pointer. -/
inductive Outcome (α : Type) where
  | ok : α → Outcome α
  | panicked : String → Outcome α
  | nilDeref : Outcome α
deriving Repr, DecidableEq

/-- Observable events of a run: a line written at a severity, a Close
call attempted on a registered sink, a close failure reported to the
stderr diagnostic stream, and process exit with a code. -/
inductive Event where
  | wrote : Int → String → Event
  | closeAttempt : Nat → Event
  | reportedCloseFailure : Nat → String → Event
  | exited : Nat → Event
deriving Repr, DecidableEq

/-- Logger.output: dispatch on the severity and write through the
matching Go log.Logger; the default branch panics with the message
fmt.Sprintln builds (a space between the operands and a final newline).
The lock acquisition it performs is modelled by outputProg below. -/
def Logger.output (l : Logger) (s : Int) (ts : Timestamp) (cs : CallSite)
    (txt : String) : Outcome Logger × List Event :=
  if s = sInfo then
    (.ok { l with infoLog := l.infoLog.Output ts cs txt }, [.wrote s txt])
  else if s = sWarning then
    (.ok { l with warningLog := l.warningLog.Output ts cs txt }, [.wrote s txt])
  else if s = sError then
    (.ok { l with errorLog := l.errorLog.Output ts cs txt }, [.wrote s txt])
  else if s = sFatal then
    (.ok { l with fatalLog := l.fatalLog.Output ts cs txt }, [.wrote s txt])
  else
    (.panicked ("unrecognized severity: " ++ " " ++ toString s ++ "\n"), [])

/-- Events of the loop in Logger.Close: every closer is closed in list
order; a failure is reported to stderr and the loop continues with the
remaining sinks. -/
def closeEvents : List Sink → List Event
  | [] => []
  | c :: rest =>
    match c.closeErr with
    | none => Event.closeAttempt c.sid :: closeEvents rest
    | some e =>
        Event.closeAttempt c.sid :: Event.reportedCloseFailure c.sid e ::
          closeEvents rest

/-- Logger.Close: close the registered closers in order under the lock;
no error is returned to the caller, only the event trace is observable. -/
def Logger.Close (l : Logger) : List Event :=
  closeEvents l.closers

/-- Model of fmt.Sprint restricted to string operands: Go inserts a
space only between operands of which neither is a string, so on strings
the result is the plain concatenation. -/
def Sprint (v : List String) : String :=
  String.join v

/-- Core of the fmt.Sprintf model: printf-style substitution, modelled
for the s verb with string operands and the escaped percent. -/
def sprintfCore : List Char → List String → String
  | '%' :: 's' :: rest, a :: as => a ++ sprintfCore rest as
  | '%' :: '%' :: rest, as => "%" ++ sprintfCore rest as
  | c :: rest, as => String.singleton c ++ sprintfCore rest as
  | [], _ => ""

/-- Model of fmt.Sprintf on the modelled fragment. -/
def Sprintf (format : String) (v : List String) : String :=
  sprintfCore format.data v

/-- Package function Info: dereference defaultLogger (nil when Init was
never called) and write the Sprint of the arguments at severity sInfo. -/
def Info (g : Option Logger) (ts : Timestamp) (cs : CallSite)
    (v : List String) : Outcome Logger × List Event :=
  match g with
  | none => (.nilDeref, [])
  | some l => l.output sInfo ts cs (Sprint v)

/-- Package function Infof: like Info with Sprintf formatting. -/
def Infof (g : Option Logger) (ts : Timestamp) (cs : CallSite)
    (format : String) (v : List String) : Outcome Logger × List Event :=
  match g with
  | none => (.nilDeref, [])
  | some l => l.output sInfo ts cs (Sprintf format v)

/-- Package function Warning. -/
def Warning (g : Option Logger) (ts : Timestamp) (cs : CallSite)
    (v : List String) : Outcome Logger × List Event :=
  match g with
  | none => (.nilDeref, [])
  | some l => l.output sWarning ts cs (Sprint v)

/-- Package function Warningf. -/
def Warningf (g : Option Logger) (ts : Timestamp) (cs : CallSite)
    (format : String) (v : List String) : Outcome Logger × List Event :=
  match g with
  | none => (.nilDeref, [])
  | some l => l.output sWarning ts cs (Sprintf format v)

/-- Package function Error. -/
def Error (g : Option Logger) (ts : Timestamp) (cs : CallSite)
    (v : List String) : Outcome Logger × List Event :=
  match g with
  | none => (.nilDeref, [])
  | some l => l.output sError ts cs (Sprint v)

/-- Package function Errorf. -/
def Errorf (g : Option Logger) (ts : Timestamp) (cs : CallSite)
    (format : String) (v : List String) : Outcome Logger × List Event :=
  match g with
  | none => (.nilDeref, [])
  | some l => l.output sError ts cs (Sprintf format v)

/-- Package function Fatal: write at severity sFatal, then Close the
default logger, then call os.Exit(1); the trailing exited event models
that nothing executes after the call. -/
def Fatal (g : Option Logger) (ts : Timestamp) (cs : CallSite)
    (v : List String) : Outcome Logger × List Event :=
  match g with
  | none => (.nilDeref, [])
  | some l =>
    match l.output sFatal ts cs (Sprint v) with
    | (Outcome.ok l', evs) => (Outcome.ok l', evs ++ l'.Close ++ [Event.exited 1])
    | other => other

/-- Package function Fatalf: like Fatal with Sprintf formatting. -/
def Fatalf (g : Option Logger) (ts : Timestamp) (cs : CallSite)
    (format : String) (v : List String) : Outcome Logger × List Event :=
  match g with
  | none => (.nilDeref, [])
  | some l =>
    match l.output sFatal ts cs (Sprintf format v) with
    | (Outcome.ok l', evs) => (Outcome.ok l', evs ++ l'.Close ++ [Event.exited 1])
    | other => other

/-- Init: build a fresh Logger over the four handles (each io.Writer
modelled by the bytes already written to it), with the prefixes of the
source; the closers and initialized fields are absent from the composite
literal in the source and therefore keep their Go zero values. -/
def Init (infoHandle warningHandle errorHandle fatalHandle : String) : Logger :=
  { infoLog := ⟨"INFO: ", infoHandle⟩
    warningLog := ⟨"WARNING: ", warningHandle⟩
    errorLog := ⟨"ERROR: ", errorHandle⟩
    fatalLog := ⟨"FATAL: ", fatalHandle⟩
    closers := []
    initialized := false }

/-- Flags of an os.OpenFile request. -/
structure FileFlags where
  create : Bool
  writeOnly : Bool
  append : Bool
  readWrite : Bool
  trunc : Bool
  excl : Bool
deriving Repr, DecidableEq

/-- An open request as the operating system observes it. -/
structure OpenRequest where
  name : String
  flags : FileFlags
  perm : Nat
deriving Repr, DecidableEq

/-- The request FileForSaving builds: O_CREATE, O_WRONLY and O_APPEND
with permission bits 0666. -/
def openReq (fileName : String) : OpenRequest :=
  ⟨fileName, ⟨true, true, true, false, false, false⟩, 0o666⟩

/-- Result of FileForSaving: the opened handle, or process termination
(the failure branch calls log.Fatalln, which exits with status 1). -/
inductive FileResult where
  | opened : Nat → FileResult
  | exitedProcess : Nat → FileResult
deriving Repr, DecidableEq

/-- FileForSaving: ask the operating system, modelled by fsys, to open
the file with the request above; return the handle on success and
terminate the process via log.Fatalln on failure. -/
def FileForSaving (fsys : OpenRequest → Except String Nat)
    (fileName : String) : FileResult × OpenRequest :=
  match fsys (openReq fileName) with
  | Except.ok h => (FileResult.opened h, openReq fileName)
  | Except.error _ => (FileResult.exitedProcess 1, openReq fileName)

/-- CustomError: a message and a captured stack trace, as two fields. -/
structure CustomError where
  Message : String
  StackTrace : String
deriving Repr, DecidableEq

/-- ErrorStruct embeds CustomError. -/
structure ErrorStruct where
  toCustomError : CustomError
deriving Repr, DecidableEq

/-- WrapError: the stack parameter is the string debug.Stack returns at
the point of invocation (an environmental input). -/
def WrapError (stack : String) (messagef : String) : CustomError :=
  ⟨messagef, stack⟩

/-- A Go error value: the message its Error method returns, and the
stack at its origin site when it happens to carry one (used to state
that wrapping ignores the origin information). -/
structure GoError where
  errMsg : String
  originStack : String
deriving Repr, DecidableEq

/-- Error method of the wrapped Go error interface value. -/
def GoError.Error (e : GoError) : String :=
  e.errMsg

/-- Return: wrap any error into an ErrorStruct, capturing the stack at
the wrapping point (the stack parameter). -/
def Return (stack : String) (err : GoError) : ErrorStruct :=
  ⟨WrapError stack err.Error⟩

/-- Error method of CustomError: the message only. -/
def CustomError.Error (err : CustomError) : String :=
  err.Message

/-- Error method of ErrorStruct, by Go method promotion of the embedded
CustomError. -/
def ErrorStruct.Error (e : ErrorStruct) : String :=
  e.toCustomError.Error

/-- Number of newline characters in a string. -/
def newlineCount (s : String) : Nat :=
  s.data.count '\n'

/-- The output line format the specification documents for one severity
name, timestamp, call site and message. -/
def fullLine (sevName : String) (ts : Timestamp) (cs : CallSite)
    (msg : String) : String :=
  sevName ++ ": " ++ dateStr ts ++ " " ++ timeStr ts ++ " " ++ cs.file ++
    ":" ++ itoaGo cs.line 0 ++ ": " ++ msg ++ "\n"

/-- Overwrite the initialized field of a Logger. -/
def setFlag (b : Bool) (l : Logger) : Logger :=
  { l with initialized := b }

/-- Map a function over the ok result of an Outcome. -/
def omap (f : Logger → Logger) : Outcome Logger → Outcome Logger
  | .ok l => .ok (f l)
  | .panicked m => .panicked m
  | .nilDeref => .nilDeref

/-- Atomic actions of the operations, for the serialization model: the
single global logLock guards each formatting-and-write step (output) and
the close loop (Close). -/
inductive Action where
  | lockAct
  | unlockAct
  | writeAct : Int → String → Action
  | closeAct : Nat → Action
deriving Repr, DecidableEq

/-- The critical-section program of Logger.output: take logLock, write,
release it (the deferred Unlock). -/
def outputProg (s : Int) (txt : String) : List Action :=
  [Action.lockAct, Action.writeAct s txt, Action.unlockAct]

/-- The critical-section program of Logger.Close: take logLock, close
each registered sink in order, release it. -/
def closeProg (sids : List Nat) : List Action :=
  Action.lockAct :: (sids.map Action.closeAct ++ [Action.unlockAct])

/-- An action that touches a sink: a write or the close of one sink. -/
def IsWork (a : Action) : Prop :=
  (∃ s txt, a = Action.writeAct s txt) ∨ ∃ i, a = Action.closeAct i

/-- A strict suffix of a critical section: zero or more work actions
followed by the final unlock. -/
inductive MidSuffix : List Action → Prop where
  | unlockOnly : MidSuffix [Action.unlockAct]
  | consWork {a : Action} {p : List Action} :
      IsWork a → MidSuffix p → MidSuffix (a :: p)

/-- A complete operation of the logger, as a program of atomic actions. -/
def IsLoggerOp (p : List Action) : Prop :=
  (∃ s txt, p = outputProg s txt) ∨ ∃ sids, p = closeProg sids

/-- A configuration of concurrent callers: what remains of each thread's
program, and the current owner of logLock. -/
structure Cfg where
  threads : Nat → List Action
  owner : Option Nat

/-- Pointwise update of the thread table. -/
def updThreads (f : Nat → List Action) (t : Nat) (p : List Action) :
    Nat → List Action :=
  fun u => if u = t then p else f u

/-- Interleaving semantics with the sync.Mutex discipline: Lock blocks
while the mutex is held by anyone, Unlock requires the holder, every
other action is always enabled. -/
inductive Step : Cfg → Cfg → Prop where
  | lockStep (cfg : Cfg) (t : Nat) (rest : List Action) :
      cfg.threads t = Action.lockAct :: rest → cfg.owner = none →
      Step cfg ⟨updThreads cfg.threads t rest, some t⟩
  | unlockStep (cfg : Cfg) (t : Nat) (rest : List Action) :
      cfg.threads t = Action.unlockAct :: rest → cfg.owner = some t →
      Step cfg ⟨updThreads cfg.threads t rest, none⟩
  | workStep (cfg : Cfg) (t : Nat) (a : Action) (rest : List Action) :
      cfg.threads t = a :: rest → IsWork a →
      Step cfg ⟨updThreads cfg.threads t rest, cfg.owner⟩

/-- Reachability under the interleaving semantics. -/
def Reach : Cfg → Cfg → Prop :=
  Relation.ReflTransGen Step

/-- Thread t is mid-flight in its formatting-and-write step or close
sequence: past the lock acquisition, before the matching release. -/
def InFlight (cfg : Cfg) (t : Nat) : Prop :=
  MidSuffix (cfg.threads t)

/-- An initial configuration: the lock is free and every thread is about
to run a complete logger operation, or nothing. -/
def InitCfg (cfg : Cfg) : Prop :=
  cfg.owner = none ∧ ∀ t, cfg.threads t = [] ∨ IsLoggerOp (cfg.threads t)

/-- The mutual-exclusion invariant: every thread is done, at the start
of a complete operation, or mid-flight and then it owns the lock. -/
def Inv (cfg : Cfg) : Prop :=
  ∀ t, cfg.threads t = [] ∨ IsLoggerOp (cfg.threads t) ∨
    (MidSuffix (cfg.threads t) ∧ cfg.owner = some t)

/-- A sample timestamp for concrete evaluations. -/
def sampleTs : Timestamp :=
  ⟨2026, 10, 11, 12, 0, 0⟩

/-- A sample call site for concrete evaluations. -/
def sampleCs : CallSite :=
  ⟨"main.go", 42⟩

/-- A sample freshly initialized Logger for concrete evaluations. -/
def sampleLogger : Logger :=
  Init "" "" "" ""

/-- A sample thread table: thread 0 runs one output operation, every
other thread is idle. -/
def sampleThreads : Nat → List Action :=
  fun t => if t = 0 then outputProg sInfo "a" else []

/-- The sample initial configuration. -/
def sampleCfg : Cfg :=
  ⟨sampleThreads, none⟩

/-- The sample configuration after thread 0 acquires the lock. -/
def sampleCfgMid : Cfg :=
  ⟨updThreads sampleThreads 0 [Action.writeAct sInfo "a", Action.unlockAct],
   some 0⟩

/-- The close loop never produces a process-exit event. -/
theorem exited_not_in_closeEvents (sinks : List Sink) (c : Nat) :
    Event.exited c ∉ closeEvents sinks := by
  induction sinks with
  | nil => simp [closeEvents]
  | cons s rest ih =>
    cases h : s.closeErr <;> simp [closeEvents, h, ih]

/-- C1: the spec states that Close closes every sink handed to Init; in
the code, the composite literal in Init leaves the closers field at its
zero value (the empty list), so a Close after Init attempts no close at
all on the sinks that were handed over. -/
theorem c1_init_registers_no_closers (ih wh eh fh : String) :
    (Init ih wh eh fh).closers = [] ∧ (Init ih wh eh fh).Close = [] :=
  ⟨rfl, rfl⟩

/-- C5: WrapError(msg) answers exactly msg from its Error method, for
every captured stack; the stack trace sits in the separate StackTrace
field and is no part of the message representation. -/
theorem c5_wraperror_message (stack msg : String) :
    (WrapError stack msg).Error = msg ∧
    (WrapError stack msg).Message = msg ∧
    (WrapError stack msg).StackTrace = stack :=
  ⟨rfl, rfl, rfl⟩

/-- C6: Return wraps any error-like value into a value with the same
display message, and the stack trace it carries is the one captured at
the wrapping point (the wrapStack parameter), independent of whatever
origin stack the wrapped error carried. -/
theorem c6_return_preserves_message (wrapStack : String) (e : GoError) :
    (Return wrapStack e).Error = e.Error ∧
    (Return wrapStack e).toCustomError.StackTrace = wrapStack :=
  ⟨rfl, rfl⟩

/-- C9: every severity function called while defaultLogger is still nil
crashes on the nil dereference and writes nothing anywhere. -/
theorem c9_nil_default_logger (ts : Timestamp) (cs : CallSite)
    (format : String) (v : List String) :
    Info none ts cs v = (Outcome.nilDeref, []) ∧
    Infof none ts cs format v = (Outcome.nilDeref, []) ∧
    Warning none ts cs v = (Outcome.nilDeref, []) ∧
    Warningf none ts cs format v = (Outcome.nilDeref, []) ∧
    Error none ts cs v = (Outcome.nilDeref, []) ∧
    Errorf none ts cs format v = (Outcome.nilDeref, []) ∧
    Fatal none ts cs v = (Outcome.nilDeref, []) ∧
    Fatalf none ts cs format v = (Outcome.nilDeref, []) :=
  ⟨rfl, rfl, rfl, rfl, rfl, rfl, rfl, rfl⟩

/-- C10: Init leaves the initialized field at false, and the operations
neither read it (their behaviour commutes with overwriting the flag) nor
write it (the flag passes through unchanged); Close ignores it as well. -/
theorem c10_initialized_never_set (ih wh eh fh : String) (l : Logger)
    (b : Bool) (s : Int) (ts : Timestamp) (cs : CallSite) (txt : String) :
    (Init ih wh eh fh).initialized = false ∧
    ((setFlag b l).output s ts cs txt).1 =
      omap (setFlag b) ((l.output s ts cs txt).1) ∧
    ((setFlag b l).output s ts cs txt).2 = (l.output s ts cs txt).2 ∧
    (setFlag b l).Close = l.Close := by
  refine ⟨rfl, ?_, ?_, rfl⟩ <;>
  · simp only [Logger.output, setFlag]
    split_ifs <;> rfl

/-- C3: Fatal and Fatalf first write the formatted line to the fatal
sink, then close every registered sink in order (failures reported, not
raised), then exit with status 1; the close loop never exits, every exit
event of Fatal carries code 1, and the non-fatal severities produce no
exit event at all. -/
theorem c3_fatal_sequence (l : Logger) (ts : Timestamp) (cs : CallSite)
    (format : String) (v : List String) :
    (Fatal (some l) ts cs v =
      (Outcome.ok { l with fatalLog := l.fatalLog.Output ts cs (Sprint v) },
       Event.wrote sFatal (Sprint v) ::
         (closeEvents l.closers ++ [Event.exited 1]))) ∧
    (Fatalf (some l) ts cs format v =
      (Outcome.ok { l with fatalLog := l.fatalLog.Output ts cs (Sprintf format v) },
       Event.wrote sFatal (Sprintf format v) ::
         (closeEvents l.closers ++ [Event.exited 1]))) ∧
    (∀ c, Event.exited c ∈ (Fatal (some l) ts cs v).2 → c = 1) ∧
    (∀ sinks c, Event.exited c ∉ closeEvents sinks) ∧
    (Info (some l) ts cs v).2 = [Event.wrote sInfo (Sprint v)] ∧
    (Warning (some l) ts cs v).2 = [Event.wrote sWarning (Sprint v)] ∧
    (Error (some l) ts cs v).2 = [Event.wrote sError (Sprint v)] := by
  refine ⟨?_, ?_, ?_, ?_, ?_, ?_, ?_⟩
  · simp [Fatal, Logger.output, sFatal, sInfo, sWarning, sError, Logger.Close]
  · simp [Fatalf, Logger.output, sFatal, sInfo, sWarning, sError, Logger.Close]
  · intro c hc
    simp [Fatal, Logger.output, sFatal, sInfo, sWarning, sError,
      Logger.Close] at hc
    rcases hc with h | h
    · exact absurd h (exited_not_in_closeEvents l.closers c)
    · exact h
  · exact fun sinks c => exited_not_in_closeEvents sinks c
  · simp [Info, Logger.output, sInfo]
  · simp [Warning, Logger.output, sWarning, sInfo]
  · simp [Error, Logger.output, sError, sInfo, sWarning]

/-- C3 witness at concrete inputs. -/
theorem c3_fatal_sequence_witness :
    Fatal (some sampleLogger) sampleTs sampleCs ["boom"] =
      (Outcome.ok { sampleLogger with
        fatalLog := sampleLogger.fatalLog.Output sampleTs sampleCs (Sprint ["boom"]) },
       Event.wrote sFatal (Sprint ["boom"]) ::
         (closeEvents sampleLogger.closers ++ [Event.exited 1])) ∧
    (1 : Nat) = 1 :=
  ⟨(c3_fatal_sequence sampleLogger sampleTs sampleCs "f" ["boom"]).1,
   (c3_fatal_sequence sampleLogger sampleTs sampleCs "f" ["boom"]).2.2.1 1
     (by decide)⟩

/-- C7: FileForSaving builds an open request for the given path with the
create, write-only and append flags and permission bits 0666; on success
it returns the opened handle, on failure it terminates the process with
status 1 instead of returning an error. -/
theorem c7_file_for_saving (fsys : OpenRequest → Except String Nat)
    (fileName : String) :
    (FileForSaving fsys fileName).2 = openReq fileName ∧
    (openReq fileName).name = fileName ∧
    (openReq fileName).flags.create = true ∧
    (openReq fileName).flags.writeOnly = true ∧
    (openReq fileName).flags.append = true ∧
    (openReq fileName).flags.readWrite = false ∧
    (openReq fileName).flags.trunc = false ∧
    (openReq fileName).perm = 0o666 ∧
    (∀ h, fsys (openReq fileName) = Except.ok h →
      (FileForSaving fsys fileName).1 = FileResult.opened h) ∧
    (∀ e, fsys (openReq fileName) = Except.error e →
      (FileForSaving fsys fileName).1 = FileResult.exitedProcess 1) := by
  refine ⟨?_, rfl, rfl, rfl, rfl, rfl, rfl, rfl, ?_, ?_⟩
  · unfold FileForSaving
    cases fsys (openReq fileName) <;> rfl
  · intro h hh
    simp [FileForSaving, hh]
  · intro e he
    simp [FileForSaving, he]

/-- C7 witness at concrete inputs: a filesystem that opens handle 7, and
one that refuses. -/
theorem c7_file_for_saving_witness :
    (FileForSaving (fun _ => Except.ok 7) "app.log").1 = FileResult.opened 7 ∧
    (FileForSaving (fun _ => Except.error "denied") "app.log").1 =
      FileResult.exitedProcess 1 :=
  ⟨(c7_file_for_saving (fun _ => Except.ok 7) "app.log").2.2.2.2.2.2.2.2.1 7 rfl,
   (c7_file_for_saving (fun _ => Except.error "denied") "app.log").2.2.2.2.2.2.2.2.2
     "denied" rfl⟩

/-- C8: for each of the four severity constants the dispatch in
Logger.output writes and never reaches the default branch; for every
internal severity value outside the four it panics with the Sprintln
message instead of silently continuing. -/
theorem c8_dispatch (l : Logger) (s : Int) (ts : Timestamp) (cs : CallSite)
    (txt : String) :
    ((s = sInfo ∨ s = sWarning ∨ s = sError ∨ s = sFatal) →
      ∃ l', l.output s ts cs txt = (Outcome.ok l', [Event.wrote s txt])) ∧
    (s ≠ sInfo → s ≠ sWarning → s ≠ sError → s ≠ sFatal →
      l.output s ts cs txt =
        (Outcome.panicked ("unrecognized severity: " ++ " " ++ toString s ++ "\n"),
         [])) := by
  constructor
  · rintro (rfl | rfl | rfl | rfl)
    · exact ⟨{ l with infoLog := l.infoLog.Output ts cs txt }, by
        simp [Logger.output, sInfo]⟩
    · exact ⟨{ l with warningLog := l.warningLog.Output ts cs txt }, by
        simp [Logger.output, sWarning, sInfo]⟩
    · exact ⟨{ l with errorLog := l.errorLog.Output ts cs txt }, by
        simp [Logger.output, sError, sInfo, sWarning]⟩
    · exact ⟨{ l with fatalLog := l.fatalLog.Output ts cs txt }, by
        simp [Logger.output, sFatal, sInfo, sWarning, sError]⟩
  · intro h1 h2 h3 h4
    simp [Logger.output, h1, h2, h3, h4]

/-- C8 witness: severity sError dispatches to a write, severity 9 hits
the panic branch. -/
theorem c8_dispatch_witness :
    (∃ l', sampleLogger.output sError sampleTs sampleCs "m" =
      (Outcome.ok l', [Event.wrote sError "m"])) ∧
    sampleLogger.output 9 sampleTs sampleCs "m" =
      (Outcome.panicked ("unrecognized severity: " ++ " " ++ toString (9 : Int) ++ "\n"),
       []) :=
  ⟨(c8_dispatch sampleLogger sError sampleTs sampleCs "m").1
     (Or.inr (Or.inr (Or.inl rfl))),
   (c8_dispatch sampleLogger 9 sampleTs sampleCs "m").2
     (by decide) (by decide) (by decide) (by decide)⟩

/-- The digit characters of the itoa model are never a newline. -/
theorem digitChar_ne_newline (d : Nat) : digitChar d ≠ '\n' := by
  unfold digitChar
  split_ifs <;> decide

/-- Decimal renderings contain no newline. -/
theorem newline_not_in_decChars (n : Nat) : '\n' ∉ decChars n := by
  induction n using Nat.strong_induction_on with
  | _ n ih =>
    unfold decChars
    split
    next hlt =>
      simp only [List.mem_singleton]
      intro h
      exact digitChar_ne_newline n h.symm
    next hge =>
      simp only [List.mem_append, List.mem_singleton]
      rintro (h | h)
      · exact ih (n / 10) (Nat.div_lt_self (by omega) (by omega)) h
      · exact digitChar_ne_newline _ h.symm

/-- The itoa model pads with zero characters and digits only, so it
contains no newline. -/
theorem newline_not_in_itoaGo (n w : Nat) : '\n' ∉ (itoaGo n w).data := by
  show '\n' ∉ List.replicate (w - (decChars n).length) '0' ++ decChars n
  simp only [List.mem_append]
  rintro (h | h)
  · exact absurd (List.eq_of_mem_replicate h) (by decide)
  · exact newline_not_in_decChars n h

/-- A string that contains no newline does not end in one. -/
theorem getLast?_ne_newline {s : String} (h : '\n' ∉ s.data) :
    s.data.getLast? ≠ some '\n' := by
  intro hl
  rcases List.mem_getLast?_eq_getLast (Option.mem_def.mpr hl) with ⟨hne, heq⟩
  have hm := List.getLast_mem hne
  rw [← heq] at hm
  exact h hm

/-- Output of a Go log.Logger whose prefix is a severity name followed
by a colon and a space appends exactly the specification's line. -/
theorem output_appends_fullLine (l : GoLogger) (name : String)
    (ts : Timestamp) (cs : CallSite) (msg : String)
    (hpre : l.prefixStr = name ++ ": ") (hm : '\n' ∉ msg.data) :
    l.Output ts cs msg = ⟨l.prefixStr, l.buf ++ fullLine name ts cs msg⟩ := by
  simp only [GoLogger.Output]
  rw [if_neg (getLast?_ne_newline hm), hpre]
  simp only [headerStr, fullLine]
  simp [String.append_assoc]

/-- A specification line contains exactly one newline character. -/
theorem newlineCount_fullLine (sevName : String) (ts : Timestamp)
    (cs : CallSite) (msg : String) (hn : '\n' ∉ sevName.data)
    (hf : '\n' ∉ cs.file.data) (hm : '\n' ∉ msg.data) :
    newlineCount (fullLine sevName ts cs msg) = 1 := by
  have hz : ∀ (l : List Char), '\n' ∉ l → List.count '\n' l = 0 :=
    fun l h => List.count_eq_zero.mpr h
  simp only [newlineCount, fullLine, dateStr, timeStr, String.data_append,
    List.count_append]
  rw [hz _ hn, hz _ hf, hz _ hm,
    hz _ (newline_not_in_itoaGo ts.year 4),
    hz _ (newline_not_in_itoaGo ts.month 2),
    hz _ (newline_not_in_itoaGo ts.day 2),
    hz _ (newline_not_in_itoaGo ts.hour 2),
    hz _ (newline_not_in_itoaGo ts.minute 2),
    hz _ (newline_not_in_itoaGo ts.second 2),
    hz _ (newline_not_in_itoaGo cs.line 0)]
  decide

/-- Output of a freshly initialized Logger at severity sInfo. -/
theorem init_output_info (ih wh eh fh : String) (ts : Timestamp)
    (cs : CallSite) (msg : String) (hm : '\n' ∉ msg.data) :
    (Init ih wh eh fh).output sInfo ts cs msg =
      (Outcome.ok (Init (ih ++ fullLine "INFO" ts cs msg) wh eh fh),
       [Event.wrote sInfo msg]) := by
  have h := output_appends_fullLine (⟨"INFO: ", ih⟩ : GoLogger) "INFO" ts cs
    msg rfl hm
  simp only [Init] at h ⊢
  simp [Logger.output, h]

/-- Output of a freshly initialized Logger at severity sWarning. -/
theorem init_output_warning (ih wh eh fh : String) (ts : Timestamp)
    (cs : CallSite) (msg : String) (hm : '\n' ∉ msg.data) :
    (Init ih wh eh fh).output sWarning ts cs msg =
      (Outcome.ok (Init ih (wh ++ fullLine "WARNING" ts cs msg) eh fh),
       [Event.wrote sWarning msg]) := by
  have h := output_appends_fullLine (⟨"WARNING: ", wh⟩ : GoLogger) "WARNING"
    ts cs msg rfl hm
  simp only [Init] at h ⊢
  simp [Logger.output, sWarning, sInfo, h]

/-- Output of a freshly initialized Logger at severity sError. -/
theorem init_output_error (ih wh eh fh : String) (ts : Timestamp)
    (cs : CallSite) (msg : String) (hm : '\n' ∉ msg.data) :
    (Init ih wh eh fh).output sError ts cs msg =
      (Outcome.ok (Init ih wh (eh ++ fullLine "ERROR" ts cs msg) fh),
       [Event.wrote sError msg]) := by
  have h := output_appends_fullLine (⟨"ERROR: ", eh⟩ : GoLogger) "ERROR"
    ts cs msg rfl hm
  simp only [Init] at h ⊢
  simp [Logger.output, sError, sWarning, sInfo, h]

/-- Output of a freshly initialized Logger at severity sFatal. -/
theorem init_output_fatal (ih wh eh fh : String) (ts : Timestamp)
    (cs : CallSite) (msg : String) (hm : '\n' ∉ msg.data) :
    (Init ih wh eh fh).output sFatal ts cs msg =
      (Outcome.ok (Init ih wh eh (fh ++ fullLine "FATAL" ts cs msg)),
       [Event.wrote sFatal msg]) := by
  have h := output_appends_fullLine (⟨"FATAL: ", fh⟩ : GoLogger) "FATAL"
    ts cs msg rfl hm
  simp only [Init] at h ⊢
  simp [Logger.output, sFatal, sError, sWarning, sInfo, h]

/-- C2: after Init, one call to each severity's logging function (plain
and formatted variants) appends to exactly that severity's sink one line
of the documented format, whose message part is the Sprint concatenation
for the plain form and the Sprintf substitution for the f form; such a
line contains exactly one newline character, its terminator. -/
theorem c2_line_format (ih wh eh fh : String) (ts : Timestamp)
    (cs : CallSite) (format : String) (v : List String)
    (hfile : '\n' ∉ cs.file.data)
    (hs : '\n' ∉ (Sprint v).data)
    (hp : '\n' ∉ (Sprintf format v).data) :
    Info (some (Init ih wh eh fh)) ts cs v =
      (Outcome.ok (Init (ih ++ fullLine "INFO" ts cs (Sprint v)) wh eh fh),
       [Event.wrote sInfo (Sprint v)]) ∧
    Infof (some (Init ih wh eh fh)) ts cs format v =
      (Outcome.ok
        (Init (ih ++ fullLine "INFO" ts cs (Sprintf format v)) wh eh fh),
       [Event.wrote sInfo (Sprintf format v)]) ∧
    Warning (some (Init ih wh eh fh)) ts cs v =
      (Outcome.ok (Init ih (wh ++ fullLine "WARNING" ts cs (Sprint v)) eh fh),
       [Event.wrote sWarning (Sprint v)]) ∧
    Warningf (some (Init ih wh eh fh)) ts cs format v =
      (Outcome.ok
        (Init ih (wh ++ fullLine "WARNING" ts cs (Sprintf format v)) eh fh),
       [Event.wrote sWarning (Sprintf format v)]) ∧
    Error (some (Init ih wh eh fh)) ts cs v =
      (Outcome.ok (Init ih wh (eh ++ fullLine "ERROR" ts cs (Sprint v)) fh),
       [Event.wrote sError (Sprint v)]) ∧
    Errorf (some (Init ih wh eh fh)) ts cs format v =
      (Outcome.ok
        (Init ih wh (eh ++ fullLine "ERROR" ts cs (Sprintf format v)) fh),
       [Event.wrote sError (Sprintf format v)]) ∧
    (Fatal (some (Init ih wh eh fh)) ts cs v).1 =
      Outcome.ok (Init ih wh eh (fh ++ fullLine "FATAL" ts cs (Sprint v))) ∧
    (Fatalf (some (Init ih wh eh fh)) ts cs format v).1 =
      Outcome.ok
        (Init ih wh eh (fh ++ fullLine "FATAL" ts cs (Sprintf format v))) ∧
    (∀ name msg, '\n' ∉ name.data → '\n' ∉ msg.data →
      newlineCount (fullLine name ts cs msg) = 1) := by
  refine ⟨?_, ?_, ?_, ?_, ?_, ?_, ?_, ?_, ?_⟩
  · simp only [Info]
    exact init_output_info ih wh eh fh ts cs (Sprint v) hs
  · simp only [Infof]
    exact init_output_info ih wh eh fh ts cs (Sprintf format v) hp
  · simp only [Warning]
    exact init_output_warning ih wh eh fh ts cs (Sprint v) hs
  · simp only [Warningf]
    exact init_output_warning ih wh eh fh ts cs (Sprintf format v) hp
  · simp only [Error]
    exact init_output_error ih wh eh fh ts cs (Sprint v) hs
  · simp only [Errorf]
    exact init_output_error ih wh eh fh ts cs (Sprintf format v) hp
  · simp only [Fatal, init_output_fatal ih wh eh fh ts cs (Sprint v) hs]
  · simp only [Fatalf, init_output_fatal ih wh eh fh ts cs (Sprintf format v) hp]
  · exact fun name msg hn hm => newlineCount_fullLine name ts cs msg hn hfile hm

/-- C2 witness at concrete inputs. -/
theorem c2_line_format_witness :
    Info (some (Init "" "" "" "")) sampleTs sampleCs ["count=", "3"] =
      (Outcome.ok
        (Init ("" ++ fullLine "INFO" sampleTs sampleCs (Sprint ["count=", "3"]))
          "" "" ""),
       [Event.wrote sInfo (Sprint ["count=", "3"])]) :=
  (c2_line_format "" "" "" "" sampleTs sampleCs "count=%s" ["count=", "3"]
    (by decide) (by decide) (by decide)).1

/-- The lock action does not touch a sink. -/
theorem not_isWork_lock : ¬ IsWork Action.lockAct := by
  rintro (⟨s, txt, h⟩ | ⟨i, h⟩) <;> cases h

/-- The unlock action does not touch a sink. -/
theorem not_isWork_unlock : ¬ IsWork Action.unlockAct := by
  rintro (⟨s, txt, h⟩ | ⟨i, h⟩) <;> cases h

/-- The tail of an output program is a strict critical-section suffix. -/
theorem midSuffix_outputTail (s : Int) (txt : String) :
    MidSuffix [Action.writeAct s txt, Action.unlockAct] :=
  MidSuffix.consWork (Or.inl ⟨s, txt, rfl⟩) MidSuffix.unlockOnly

/-- The tail of a close program is a strict critical-section suffix. -/
theorem midSuffix_closeTail (sids : List Nat) :
    MidSuffix (sids.map Action.closeAct ++ [Action.unlockAct]) := by
  induction sids with
  | nil => exact MidSuffix.unlockOnly
  | cons i rest ih => exact MidSuffix.consWork (Or.inr ⟨i, rfl⟩) ih

/-- Every logger operation is the lock followed by a strict suffix. -/
theorem loggerOp_shape {p : List Action} (h : IsLoggerOp p) :
    ∃ q, p = Action.lockAct :: q ∧ MidSuffix q := by
  rcases h with ⟨s, txt, rfl⟩ | ⟨sids, rfl⟩
  · exact ⟨_, rfl, midSuffix_outputTail s txt⟩
  · exact ⟨_, rfl, midSuffix_closeTail sids⟩

/-- A strict critical-section suffix is never a whole operation. -/
theorem midSuffix_ne_loggerOp {p : List Action} (hm : MidSuffix p)
    (ho : IsLoggerOp p) : False := by
  rcases loggerOp_shape ho with ⟨q, rfl, _⟩
  cases hm with
  | consWork hw _ => exact not_isWork_lock hw

/-- One step of the interleaving semantics preserves the
mutual-exclusion invariant. -/
theorem inv_step {cfg cfg' : Cfg} (hinv : Inv cfg) (hs : Step cfg cfg') :
    Inv cfg' := by
  cases hs with
  | lockStep t rest hth hown =>
    intro u
    change (if u = t then rest else cfg.threads u) = [] ∨
      IsLoggerOp (if u = t then rest else cfg.threads u) ∨
      (MidSuffix (if u = t then rest else cfg.threads u) ∧ some t = some u)
    by_cases hu : u = t
    · subst hu
      rw [if_pos rfl]
      rcases hinv u with h0 | hop | ⟨hmid, hown'⟩
      · rw [h0] at hth
        cases hth
      · rcases loggerOp_shape hop with ⟨q, hq, hmq⟩
        rw [hth] at hq
        injection hq with hhead htail
        subst htail
        exact Or.inr (Or.inr ⟨hmq, rfl⟩)
      · rw [hown] at hown'
        cases hown'
    · rw [if_neg hu]
      rcases hinv u with h0 | hop | ⟨hmid, hown'⟩
      · exact Or.inl h0
      · exact Or.inr (Or.inl hop)
      · rw [hown] at hown'
        cases hown'
  | unlockStep t rest hth hown =>
    intro u
    change (if u = t then rest else cfg.threads u) = [] ∨
      IsLoggerOp (if u = t then rest else cfg.threads u) ∨
      (MidSuffix (if u = t then rest else cfg.threads u) ∧ none = some u)
    by_cases hu : u = t
    · subst hu
      rw [if_pos rfl]
      rcases hinv u with h0 | hop | ⟨hmid, hown'⟩
      · rw [h0] at hth
        cases hth
      · rcases loggerOp_shape hop with ⟨q, hq, hmq⟩
        rw [hth] at hq
        simp at hq
      · rw [hth] at hmid
        cases hmid with
        | unlockOnly => exact Or.inl rfl
        | consWork hw _ => exact absurd hw not_isWork_unlock
    · rw [if_neg hu]
      rcases hinv u with h0 | hop | ⟨hmid, hown'⟩
      · exact Or.inl h0
      · exact Or.inr (Or.inl hop)
      · rw [hown] at hown'
        injection hown' with he
        exact absurd he.symm hu
  | workStep t a rest hth hw =>
    intro u
    change (if u = t then rest else cfg.threads u) = [] ∨
      IsLoggerOp (if u = t then rest else cfg.threads u) ∨
      (MidSuffix (if u = t then rest else cfg.threads u) ∧
        cfg.owner = some u)
    by_cases hu : u = t
    · subst hu
      rw [if_pos rfl]
      rcases hinv u with h0 | hop | ⟨hmid, hown'⟩
      · rw [h0] at hth
        cases hth
      · rcases loggerOp_shape hop with ⟨q, hq, hmq⟩
        rw [hth] at hq
        injection hq with hhead htail
        subst hhead
        exact absurd hw not_isWork_lock
      · rw [hth] at hmid
        cases hmid with
        | unlockOnly => exact absurd hw not_isWork_unlock
        | consWork hw2 hm2 => exact Or.inr (Or.inr ⟨hm2, hown'⟩)
    · rw [if_neg hu]
      exact hinv u

/-- The invariant holds in every reachable configuration. -/
theorem inv_reach {cfg0 cfg : Cfg} (h0 : Inv cfg0) (hr : Reach cfg0 cfg) :
    Inv cfg := by
  induction hr with
  | refl => exact h0
  | tail _ hstep ih => exact inv_step ih hstep

/-- An initial configuration satisfies the invariant. -/
theorem initCfg_inv {cfg : Cfg} (h : InitCfg cfg) : Inv cfg := by
  intro t
  rcases h.2 t with h0 | hop
  · exact Or.inl h0
  · exact Or.inr (Or.inl hop)

/-- Under the invariant, a thread in flight owns the lock. -/
theorem inFlight_owner {cfg : Cfg} (hinv : Inv cfg) {t : Nat}
    (h : InFlight cfg t) : cfg.owner = some t := by
  rcases hinv t with h0 | hop | ⟨hmid, hown⟩
  · unfold InFlight at h
    rw [h0] at h
    cases h
  · exact absurd hop fun hop2 => midSuffix_ne_loggerOp h hop2
  · exact hown

/-- C4: in every configuration reachable from an initial one in which
each thread runs a logger operation (an output of any severity, or a
close sequence), at most one thread is inside its formatting-and-write
or close critical section at any time: the single lock serializes them. -/
theorem c4_serialized (cfg0 cfg : Cfg) (t1 t2 : Nat) (hinit : InitCfg cfg0)
    (hreach : Reach cfg0 cfg) (h1 : InFlight cfg t1) (h2 : InFlight cfg t2) :
    t1 = t2 := by
  have hinv := inv_reach (initCfg_inv hinit) hreach
  have e1 := inFlight_owner hinv h1
  have e2 := inFlight_owner hinv h2
  rw [e1] at e2
  exact Option.some.inj e2

/-- C4 witness: a configuration with thread 0 one step into an output
operation, reached from the sample initial configuration. -/
theorem c4_serialized_witness : (0 : Nat) = 0 :=
  c4_serialized sampleCfg sampleCfgMid 0 0
    ⟨rfl, fun t => by
      cases t with
      | zero => exact Or.inr (Or.inl ⟨sInfo, "a", rfl⟩)
      | succ n => exact Or.inl rfl⟩
    (Relation.ReflTransGen.single
      (Step.lockStep sampleCfg 0
        [Action.writeAct sInfo "a", Action.unlockAct] rfl rfl))
    (MidSuffix.consWork (Or.inl ⟨sInfo, "a", rfl⟩) MidSuffix.unlockOnly)
    (MidSuffix.consWork (Or.inl ⟨sInfo, "a", rfl⟩) MidSuffix.unlockOnly)

end LoggerSpec
